import Mathlib

/-!
Shallow embedding of the pure logic of the onedrive-api crate.

Embedded here from the source:
* `ExpectRange` and its deserializer (`src/lib.rs`, `impl Deserialize for
  ExpectRange`, `visit_str`);
* `snake_to_camel_case` and the field descriptors generated by
  `define_resource_object!` for `Drive` and `DriveItem` (`src/resource.rs`);
* the serde serialization of `ConflictBehavior` (`src/lib.rs`);
* the serde deserialization of `ErrorObject` (`src/resource.rs`).

Rust `u64` values are modelled as `Nat` with explicit bounds against
`U64_MAX`; fallible operations return `Option`.
-/

namespace OneDriveApi

/-- The largest value of Rust's `u64` type (`u64::MAX`). -/
def U64_MAX : Nat := 18446744073709551615

/-- Model of `u64::checked_add` on in-range operands: `none` exactly when the
sum does not fit in 64 bits. -/
def checkedAdd (a b : Nat) : Option Nat :=
  if a + b ≤ U64_MAX then some (a + b) else none

/-- Model of Rust's `v.split('-')` (collected into a list): split the
character list at every dash, keeping empty segments, so the result is
always nonempty. -/
def splitDash : List Char → List (List Char)
  | [] => [[]]
  | c :: rest =>
    if c = '-' then [] :: splitDash rest
    else
      match splitDash rest with
      | [] => [[c]]
      | p :: ps => (c :: p) :: ps

/-- Helper for `parseU64`: Rust's unsigned `from_str` accepts one optional
leading plus sign. -/
def stripPlus (cs : List Char) : List Char :=
  match cs with
  | c :: rest => if c = '+' then rest else cs
  | [] => []

/-- Value of a big-endian list of ASCII digit characters. -/
def digitsToNat (cs : List Char) : Nat :=
  cs.foldl (fun acc c => acc * 10 + (c.toNat - 48)) 0

/-- Model of `str::parse::<u64>()`: optional leading `+`, then a nonempty
run of ASCII digits whose value fits in 64 bits; anything else fails. -/
def parseU64 (cs : List Char) : Option Nat :=
  let ds := stripPlus cs
  if ds = [] then none
  else if ds.all (fun c => c.isDigit) then
    if digitsToNat ds ≤ U64_MAX then some (digitsToNat ds) else none
  else none

/-- A half-open byte range `start..end` or `start..` (`ExpectRange` in
`src/lib.rs`); `end_` is the optional exclusive upper bound. -/
structure ExpectRange where
  start : Nat
  end_ : Option Nat
deriving DecidableEq, Repr

/-- Parsing of the segment after the first dash (`match it.next()?` in
`visit_str`): empty means an open-ended range; otherwise the inclusive
bound is parsed, incremented with `checked_add(1)`, and required to
exceed `start`. -/
def parseEnd (start : Nat) (s : List Char) : Option (Option Nat) :=
  match s with
  | [] => some none
  | _ =>
    match parseU64 s with
    | none => none
    | some e0 =>
      match checkedAdd e0 1 with
      | none => none
      | some e => if e ≤ start then none else some (some e)

/-- Model of `ExpectRange`'s deserializer (`visit_str` in `src/lib.rs`):
split at dashes, parse the part before the first dash as `start`, the part
after it per `parseEnd`, and reject any third segment. -/
def parseExpectRange (v : String) : Option ExpectRange :=
  match splitDash v.toList with
  | first :: second :: rest =>
    match parseU64 first with
    | none => none
    | some start =>
      match parseEnd start second with
      | none => none
      | some end_ => if rest = [] then some ⟨start, end_⟩ else none
  | _ => none

/-- Big-endian decimal digit characters of a natural number: the canonical
decimal numeral used on the wire. -/
def decChars (n : Nat) : List Char :=
  if h : n < 10 then [Char.ofNat (48 + n)]
  else decChars (n / 10) ++ [Char.ofNat (48 + n % 10)]
decreasing_by exact Nat.div_lt_self (by omega) (by omega)

/-- The canonical decimal numeral of a natural number, as a string. -/
def decimalStr (n : Nat) : String :=
  String.mk (decChars n)

/-- Splitting never returns an empty list of segments. -/
theorem splitDash_ne_nil (l : List Char) : splitDash l ≠ [] := by
  cases l with
  | nil => simp [splitDash]
  | cons c rest =>
    simp only [splitDash]
    split
    · simp
    · split <;> simp

/-- A dash-free character list is returned as a single segment. -/
theorem splitDash_no_dash (xs : List Char) (h : '-' ∉ xs) : splitDash xs = [xs] := by
  induction xs with
  | nil => rfl
  | cons c rest ih =>
    simp only [List.mem_cons, not_or] at h
    obtain ⟨h1, h2⟩ := h
    have hcne : ¬c = '-' := fun hc => h1 hc.symm
    simp only [splitDash, if_neg hcne, ih h2]

/-- Splitting a list whose first dash separates a dash-free prefix from the
rest peels off that prefix as the first segment. -/
theorem splitDash_append (xs ys : List Char) (h : '-' ∉ xs) :
    splitDash (xs ++ '-' :: ys) = xs :: splitDash ys := by
  induction xs with
  | nil => simp [splitDash]
  | cons c rest ih =>
    simp only [List.mem_cons, not_or] at h
    obtain ⟨h1, h2⟩ := h
    have hcne : ¬c = '-' := fun hc => h1 hc.symm
    simp only [List.cons_append, splitDash, if_neg hcne]
    rw [show rest.append ('-' :: ys) = rest ++ '-' :: ys from rfl, ih h2]

/-- An offset character below ten is an ASCII digit. -/
theorem digitChar_isDigit (d : Nat) (h : d < 10) :
    (Char.ofNat (48 + d)).isDigit = true := by
  interval_cases d <;> decide

/-- Code point of the ASCII digit character for a value below ten. -/
theorem digitChar_toNat (d : Nat) (h : d < 10) : (Char.ofNat (48 + d)).toNat = 48 + d := by
  interval_cases d <;> decide

/-- Every character of a canonical decimal numeral is an ASCII digit. -/
theorem decChars_digits (n : Nat) : ∀ c ∈ decChars n, c.isDigit = true := by
  induction n using Nat.strong_induction_on with
  | _ n ih =>
    rw [decChars]
    split
    · next h =>
      intro c hc
      simp only [List.mem_singleton] at hc
      subst hc
      exact digitChar_isDigit n h
    · next h =>
      intro c hc
      rcases List.mem_append.mp hc with h1 | h1
      · exact ih (n / 10) (Nat.div_lt_self (by omega) (by omega)) c h1
      · simp only [List.mem_singleton] at h1
        subst h1
        exact digitChar_isDigit (n % 10) (Nat.mod_lt _ (by omega))

/-- A canonical decimal numeral is never empty. -/
theorem decChars_ne_nil (n : Nat) : decChars n ≠ [] := by
  rw [decChars]
  split <;> simp

/-- A canonical decimal numeral contains no dash. -/
theorem not_dash_decChars (n : Nat) : '-' ∉ decChars n := by
  intro hm
  have := decChars_digits n '-' hm
  exact absurd this (by decide)

/-- Appending one digit multiplies the accumulated value by ten. -/
theorem digitsToNat_append_digit (xs : List Char) (c : Char) :
    digitsToNat (xs ++ [c]) = digitsToNat xs * 10 + (c.toNat - 48) := by
  simp [digitsToNat, List.foldl_append]

/-- Reading back the canonical decimal numeral recovers the number. -/
theorem digitsToNat_decChars (n : Nat) : digitsToNat (decChars n) = n := by
  induction n using Nat.strong_induction_on with
  | _ n ih =>
    rw [decChars]
    split
    · next h =>
      simp [digitsToNat, digitChar_toNat n h]
    · next h =>
      rw [digitsToNat_append_digit, ih (n / 10) (Nat.div_lt_self (by omega) (by omega)),
        digitChar_toNat (n % 10) (Nat.mod_lt _ (by omega))]
      omega

/-- The plus-sign stripper leaves an all-digit list unchanged. -/
theorem stripPlus_of_digits (cs : List Char) (h : ∀ c ∈ cs, c.isDigit = true) :
    stripPlus cs = cs := by
  cases cs with
  | nil => rfl
  | cons c rest =>
    have hc := h c (by simp)
    simp only [stripPlus]
    rw [if_neg]
    intro he
    subst he
    exact absurd hc (by decide)

/-- The u64 parser accepts the canonical decimal numeral of any in-range
number and returns that number. -/
theorem parseU64_decChars (n : Nat) (h : n ≤ U64_MAX) :
    parseU64 (decChars n) = some n := by
  have hd := decChars_digits n
  simp only [parseU64, stripPlus_of_digits _ hd]
  rw [if_neg (decChars_ne_nil n), if_pos (List.all_eq_true.mpr hd),
    digitsToNat_decChars n, if_pos h]

/-- String concatenation concatenates the character lists. -/
theorem toList_append (s t : String) : (s ++ t).toList = s.toList ++ t.toList := by
  cases s
  cases t
  rfl

/-- Characters of a string built from a character list. -/
theorem toList_mk (l : List Char) : (String.mk l).toList = l := rfl

/-- Characters of the dash string. -/
theorem toList_dash : ("-" : String).toList = ['-'] := rfl

/-- Characters of the wire string for a bounded range. -/
theorem wire_toList (a b : Nat) :
    (decimalStr a ++ ("-") ++ decimalStr b).toList = decChars a ++ '-' :: decChars b := by
  simp only [toList_append, decimalStr, toList_mk, toList_dash]
  simp

/-- Characters of the wire string for an open-ended range. -/
theorem wire_toList_open (a : Nat) :
    (decimalStr a ++ ("-")).toList = decChars a ++ '-' :: [] := by
  simp only [toList_append, decimalStr, toList_mk, toList_dash]

/-- A successfully parsed inclusive bound yields its successor when the
successor fits in 64 bits and exceeds the start. -/
theorem parseEnd_closed (start e0 : Nat) (s : List Char)
    (hp : parseU64 s = some e0) (he : e0 + 1 ≤ U64_MAX) (hlt : start < e0 + 1) :
    parseEnd start s = some (some (e0 + 1)) := by
  cases s with
  | nil => simp [parseU64, stripPlus] at hp
  | cons c cs =>
    simp only [parseEnd, hp, checkedAdd, if_pos he]
    rw [if_neg (by omega)]

/-- A second segment parsing to u64::MAX makes the whole parse fail:
the checked increment overflows. -/
theorem parseEnd_overflow (start : Nat) (s : List Char)
    (hp : parseU64 s = some U64_MAX) : parseEnd start s = none := by
  cases s with
  | nil => simp [parseU64, stripPlus] at hp
  | cons c cs =>
    simp only [parseEnd, hp, checkedAdd]
    rw [if_neg (by decide)]

/-- An accepted present upper bound strictly exceeds the start. -/
theorem parseEnd_lt (start : Nat) (s : List Char) (e : Nat)
    (h : parseEnd start s = some (some e)) : start < e := by
  cases s with
  | nil => simp [parseEnd] at h
  | cons c cs =>
    simp only [parseEnd] at h
    cases hp : parseU64 (c :: cs) with
    | none => rw [hp] at h; simp at h
    | some e0 =>
      rw [hp] at h
      simp only [checkedAdd] at h
      split at h
      · simp at h
      · split at h
        · simp at h
        · next hle =>
          simp only [Option.some_inj] at h
          omega

/-- Characters of the wire string with the maximal inclusive upper bound. -/
theorem wire_toList_max (a : Nat) :
    (decimalStr a ++ ("-18446744073709551615")).toList
      = decChars a ++ '-' :: String.toList ("18446744073709551615") := by
  simp only [toList_append, decimalStr, toList_mk]
  rfl

/-- C1 counterexample: for the pair a = 0, b = 18446744073709551615 = u64::MAX
(which satisfies a ≤ b), deserializing the wire string "0-18446744073709551615"
does not succeed: the checked increment of the inclusive bound overflows, so
the parse yields no value at all. -/
theorem expectRange_parse_max_counterexample :
    (0 : Nat) ≤ 18446744073709551615 ∧
    parseExpectRange ("0-18446744073709551615") = none ∧
    parseExpectRange ("0-18446744073709551615") ≠
      some ⟨0, some 18446744073709551616⟩ := by decide

/-- C1 (amended): for every pair of decimal u64 numerals a, b with a ≤ b and
b strictly below u64::MAX, deserializing "{a}-{b}" succeeds and yields
{start := a, end := some (b + 1)}; and for every decimal u64 numeral a,
deserializing "{a}-" succeeds and yields {start := a, end := none}. -/
theorem expectRange_parse_valid :
    (∀ a b : Nat, a ≤ b → b < U64_MAX →
      parseExpectRange (decimalStr a ++ ("-") ++ decimalStr b)
        = some ⟨a, some (b + 1)⟩) ∧
    (∀ a : Nat, a ≤ U64_MAX →
      parseExpectRange (decimalStr a ++ ("-")) = some ⟨a, none⟩) := by
  constructor
  · intro a b hab hb
    have ha : a ≤ U64_MAX := by omega
    have hend : parseEnd a (decChars b) = some (some (b + 1)) :=
      parseEnd_closed a b (decChars b) (parseU64_decChars b (by omega))
        (by omega) (by omega)
    simp only [parseExpectRange, wire_toList,
      splitDash_append _ _ (not_dash_decChars a),
      splitDash_no_dash _ (not_dash_decChars b),
      parseU64_decChars a ha, hend]
    simp
  · intro a ha
    simp only [parseExpectRange, wire_toList_open,
      splitDash_append _ _ (not_dash_decChars a),
      parseU64_decChars a ha, parseEnd, splitDash]
    simp

/-- Witness for the amended C1 at a = 42, b = 196 and at a = 418. -/
theorem expectRange_parse_valid_witness :
    parseExpectRange (decimalStr 42 ++ ("-") ++ decimalStr 196)
      = some ⟨42, some 197⟩ ∧
    parseExpectRange (decimalStr 418 ++ ("-")) = some ⟨418, none⟩ :=
  ⟨expectRange_parse_valid.1 42 196 (by decide) (by decide),
    expectRange_parse_valid.2 418 (by decide)⟩

/-- C2: deserializing an ExpectRange from each of "", "42-4", "-9", "-",
"1-2-3", "0--2", "-1-2" fails: no value is produced at all. -/
theorem expectRange_parse_malformed :
    parseExpectRange ("") = none ∧
    parseExpectRange ("42-4") = none ∧
    parseExpectRange ("-9") = none ∧
    parseExpectRange ("-") = none ∧
    parseExpectRange ("1-2-3") = none ∧
    parseExpectRange ("0--2") = none ∧
    parseExpectRange ("-1-2") = none := by decide

/-- C3: every ExpectRange produced by successful deserialization satisfies
start < end whenever the end is present. -/
theorem expectRange_invariant (v : String) (r : ExpectRange) (e : Nat)
    (h : parseExpectRange v = some r) (he : r.end_ = some e) : r.start < e := by
  simp only [parseExpectRange] at h
  rcases hsp : splitDash v.toList with _ | ⟨first, _ | ⟨second, rest⟩⟩ <;> rw [hsp] at h
  · simp at h
  · simp at h
  · dsimp only at h
    cases hp : parseU64 first with
    | none => rw [hp] at h; simp at h
    | some st =>
      rw [hp] at h
      dsimp only at h
      cases hpe : parseEnd st second with
      | none => rw [hpe] at h; simp at h
      | some e2 =>
        rw [hpe] at h
        dsimp only at h
        split at h
        · simp only [Option.some_inj] at h
          subst h
          simp only at he
          subst he
          exact parseEnd_lt st second e hpe
        · simp at h

/-- Witness for C3 at the wire string "42-196". -/
theorem expectRange_invariant_witness :
    parseExpectRange ("42-196") = some ⟨42, some 197⟩ ∧ (42 : Nat) < 197 :=
  ⟨by decide, expectRange_invariant ("42-196") ⟨42, some 197⟩ 197 (by decide) rfl⟩

/-- C10: for every decimal u64 numeral a, deserializing
"{a}-18446744073709551615" (inclusive upper bound u64::MAX) fails: the
exclusive upper bound is computed with checked 64-bit addition, which
overflows, so no arithmetically wrapped range is ever produced. -/
theorem expectRange_parse_overflow (a : Nat) (ha : a ≤ U64_MAX) :
    parseExpectRange (decimalStr a ++ ("-18446744073709551615")) = none := by
  have h20 : parseU64 (String.toList ("18446744073709551615")) = some U64_MAX := by
    decide
  simp only [parseExpectRange, wire_toList_max,
    splitDash_append _ _ (not_dash_decChars a),
    splitDash_no_dash _ (by decide : '-' ∉ String.toList ("18446744073709551615")),
    parseU64_decChars a ha, parseEnd_overflow a _ h20]

/-- Witness for C10 at a = 0. -/
theorem expectRange_parse_overflow_witness :
    parseExpectRange (decimalStr 0 ++ ("-18446744073709551615")) = none :=
  expectRange_parse_overflow 0 (by decide)

/-- Model of Rust's `char::to_ascii_uppercase`: subtract 32 from a lowercase
ASCII letter, leave every other character unchanged. -/
def toAsciiUppercase (c : Char) : Char :=
  if 'a' ≤ c ∧ c ≤ 'z' then Char.ofNat (c.toNat - 32) else c

/-- Model of `snake_to_camel_case` from `src/resource.rs`: walk the
characters, dropping underscores and uppercasing the character following
each run of underscores. The fold state is the output buffer paired with
the `is_u` flag. -/
def snake_to_camel_case (s : String) : String :=
  (s.toList.foldl
    (fun bu c =>
      if c = '_' then (bu.1, true)
      else if bu.2 then (bu.1.push (toAsciiUppercase c), false)
      else (bu.1.push c, false))
    (("", false) : String × Bool)).1

/-- C4: the snake_case to camelCase translation on the three documented
examples. -/
theorem snake_to_camel_case_spec :
    snake_to_camel_case ("hello_world") = ("helloWorld") ∧
    snake_to_camel_case ("wh_tst_ef_ck") = ("whTstEfCk") ∧
    snake_to_camel_case ("abc") = ("abc") := by decide

/-- The conflict resolution behavior for actions that create a new item
(`ConflictBehavior` in `src/lib.rs`). -/
inductive ConflictBehavior where
  | Fail
  | Replace
  | Rename
deriving DecidableEq

/-- Rust identifier of each `ConflictBehavior` variant. -/
def ConflictBehavior.variantName : ConflictBehavior → String
  | .Fail => ("Fail")
  | .Replace => ("Replace")
  | .Rename => ("Rename")

/-- Model of `char::to_ascii_lowercase`: add 32 to an uppercase ASCII
letter, leave every other character unchanged. -/
def toAsciiLowercase (c : Char) : Char :=
  if 'A' ≤ c ∧ c ≤ 'Z' then Char.ofNat (c.toNat + 32) else c

/-- Serde's `rename_all = "camelCase"` rule applied to an enum variant:
lowercase the first ASCII character of the PascalCase identifier. -/
def serdeVariantCamelCase (s : String) : String :=
  match s.toList with
  | [] => ("")
  | c :: rest => String.mk (toAsciiLowercase c :: rest)

/-- Model of the derived `Serialize` for `ConflictBehavior`: a unit enum
variant serializes as its renamed variant-name string. -/
def serializeConflictBehavior (v : ConflictBehavior) : String :=
  serdeVariantCamelCase v.variantName

/-- C5: serializing ConflictBehavior produces exactly "fail" for Fail,
"replace" for Replace, "rename" for Rename, and no other values. -/
theorem conflictBehavior_serialize :
    serializeConflictBehavior ConflictBehavior.Fail = ("fail") ∧
    serializeConflictBehavior ConflictBehavior.Replace = ("replace") ∧
    serializeConflictBehavior ConflictBehavior.Rename = ("rename") ∧
    ∀ v : ConflictBehavior,
      serializeConflictBehavior v ∈ [("fail"), ("replace"), ("rename")] := by
  refine ⟨by decide, by decide, by decide, ?_⟩
  intro v
  cases v <;> decide

/-- The selectable field descriptors generated by `define_resource_object!`
for `Drive` (mod `DriveField` in `src/resource.rs`): one token per listed
field; none is marked `[unselectable]`. -/
inductive DriveField where
  | id
  | created_by
  | created_date_time
  | description
  | drive_type
  | items
  | last_modified_by
  | last_modified_date_time
  | name
  | owner
  | quota
  | root
  | sharepoint_ids
  | special
  | system
  | web_url
deriving DecidableEq

/-- Logical (snake_case) name of each `Drive` field descriptor. -/
def DriveField.logicalName : DriveField → String
  | .id => ("id")
  | .created_by => ("created_by")
  | .created_date_time => ("created_date_time")
  | .description => ("description")
  | .drive_type => ("drive_type")
  | .items => ("items")
  | .last_modified_by => ("last_modified_by")
  | .last_modified_date_time => ("last_modified_date_time")
  | .name => ("name")
  | .owner => ("owner")
  | .quota => ("quota")
  | .root => ("root")
  | .sharepoint_ids => ("sharepoint_ids")
  | .special => ("special")
  | .system => ("system")
  | .web_url => ("web_url")

/-- Per-descriptor `api_field_name` for `Drive`, as expanded by the macro:
`snake_to_camel_case(stringify!(field))`; no `Drive` field declares a
rename literal, so no arm substitutes one. -/
def DriveField.api_field_name : DriveField → String
  | .id => snake_to_camel_case ("id")
  | .created_by => snake_to_camel_case ("created_by")
  | .created_date_time => snake_to_camel_case ("created_date_time")
  | .description => snake_to_camel_case ("description")
  | .drive_type => snake_to_camel_case ("drive_type")
  | .items => snake_to_camel_case ("items")
  | .last_modified_by => snake_to_camel_case ("last_modified_by")
  | .last_modified_date_time => snake_to_camel_case ("last_modified_date_time")
  | .name => snake_to_camel_case ("name")
  | .owner => snake_to_camel_case ("owner")
  | .quota => snake_to_camel_case ("quota")
  | .root => snake_to_camel_case ("root")
  | .sharepoint_ids => snake_to_camel_case ("sharepoint_ids")
  | .special => snake_to_camel_case ("special")
  | .system => snake_to_camel_case ("system")
  | .web_url => snake_to_camel_case ("web_url")

/-- The selectable field descriptors generated by `define_resource_object!`
for `DriveItem` (mod `DriveItemField` in `src/resource.rs`): one token per
listed field except `download_url`, whose `[unselectable]` mark makes the
macro's `__impl_if_empty` arm emit neither a descriptor type nor a
`ResourceFieldOf<DriveItem>` impl for it. -/
inductive DriveItemField where
  | audio
  | content
  | c_tag
  | deleted
  | description
  | file
  | file_system_info
  | folder
  | image
  | location
  | package
  | photo
  | publication
  | remote_item
  | root
  | search_result
  | shared
  | sharepoint_ids
  | size
  | special_folder
  | video
  | web_dav_url
  | children
  | created_by_user
  | last_modified_by_user
  | permissions
  | thumbnails
  | versions
  | id
  | created_by
  | created_date_time
  | e_tag
  | last_modified_by
  | last_modified_date_time
  | name
  | parent_reference
  | web_url
deriving DecidableEq

/-- Logical (snake_case) name of each `DriveItem` field descriptor. -/
def DriveItemField.logicalName : DriveItemField → String
  | .audio => ("audio")
  | .content => ("content")
  | .c_tag => ("c_tag")
  | .deleted => ("deleted")
  | .description => ("description")
  | .file => ("file")
  | .file_system_info => ("file_system_info")
  | .folder => ("folder")
  | .image => ("image")
  | .location => ("location")
  | .package => ("package")
  | .photo => ("photo")
  | .publication => ("publication")
  | .remote_item => ("remote_item")
  | .root => ("root")
  | .search_result => ("search_result")
  | .shared => ("shared")
  | .sharepoint_ids => ("sharepoint_ids")
  | .size => ("size")
  | .special_folder => ("special_folder")
  | .video => ("video")
  | .web_dav_url => ("web_dav_url")
  | .children => ("children")
  | .created_by_user => ("created_by_user")
  | .last_modified_by_user => ("last_modified_by_user")
  | .permissions => ("permissions")
  | .thumbnails => ("thumbnails")
  | .versions => ("versions")
  | .id => ("id")
  | .created_by => ("created_by")
  | .created_date_time => ("created_date_time")
  | .e_tag => ("e_tag")
  | .last_modified_by => ("last_modified_by")
  | .last_modified_date_time => ("last_modified_date_time")
  | .name => ("name")
  | .parent_reference => ("parent_reference")
  | .web_url => ("web_url")

/-- Per-descriptor `api_field_name` for `DriveItem`, as expanded by the
macro: `snake_to_camel_case(stringify!(field))`; no selectable `DriveItem`
field declares a rename literal (the only rename in the source sits on the
non-selectable `download_url`), so no arm substitutes one. -/
def DriveItemField.api_field_name : DriveItemField → String
  | .audio => snake_to_camel_case ("audio")
  | .content => snake_to_camel_case ("content")
  | .c_tag => snake_to_camel_case ("c_tag")
  | .deleted => snake_to_camel_case ("deleted")
  | .description => snake_to_camel_case ("description")
  | .file => snake_to_camel_case ("file")
  | .file_system_info => snake_to_camel_case ("file_system_info")
  | .folder => snake_to_camel_case ("folder")
  | .image => snake_to_camel_case ("image")
  | .location => snake_to_camel_case ("location")
  | .package => snake_to_camel_case ("package")
  | .photo => snake_to_camel_case ("photo")
  | .publication => snake_to_camel_case ("publication")
  | .remote_item => snake_to_camel_case ("remote_item")
  | .root => snake_to_camel_case ("root")
  | .search_result => snake_to_camel_case ("search_result")
  | .shared => snake_to_camel_case ("shared")
  | .sharepoint_ids => snake_to_camel_case ("sharepoint_ids")
  | .size => snake_to_camel_case ("size")
  | .special_folder => snake_to_camel_case ("special_folder")
  | .video => snake_to_camel_case ("video")
  | .web_dav_url => snake_to_camel_case ("web_dav_url")
  | .children => snake_to_camel_case ("children")
  | .created_by_user => snake_to_camel_case ("created_by_user")
  | .last_modified_by_user => snake_to_camel_case ("last_modified_by_user")
  | .permissions => snake_to_camel_case ("permissions")
  | .thumbnails => snake_to_camel_case ("thumbnails")
  | .versions => snake_to_camel_case ("versions")
  | .id => snake_to_camel_case ("id")
  | .created_by => snake_to_camel_case ("created_by")
  | .created_date_time => snake_to_camel_case ("created_date_time")
  | .e_tag => snake_to_camel_case ("e_tag")
  | .last_modified_by => snake_to_camel_case ("last_modified_by")
  | .last_modified_date_time => snake_to_camel_case ("last_modified_date_time")
  | .name => snake_to_camel_case ("name")
  | .parent_reference => snake_to_camel_case ("parent_reference")
  | .web_url => snake_to_camel_case ("web_url")

/-- C6: no selectable DriveItem field descriptor is a token for
download_url, and none has the vendor-prefixed wire name, so no
ResourceFieldOf capability with that wire name exists to be passed to a
query builder. -/
theorem driveItemField_excludes_download_url :
    ∀ f : DriveItemField,
      f.logicalName ≠ ("download_url") ∧
      f.api_field_name ≠ ("@microsoft.graph.downloadUrl") := by
  intro f
  cases f <;> exact ⟨by decide, by decide⟩

/-- C8: for every selectable Drive and DriveItem descriptor,
api_field_name is the camelCase translation of the snake_case logical
name (no selectable field declares a wire-name override, so the override
branch of the macro never fires); in particular e_tag yields "eTag". -/
theorem api_field_name_camel :
    (∀ f : DriveField, f.api_field_name = snake_to_camel_case f.logicalName) ∧
    (∀ f : DriveItemField, f.api_field_name = snake_to_camel_case f.logicalName) ∧
    DriveItemField.e_tag.api_field_name = ("eTag") ∧
    DriveItemField.web_dav_url.api_field_name = ("webDavUrl") ∧
    DriveField.created_date_time.api_field_name = ("createdDateTime") := by
  refine ⟨?_, ?_, by decide, by decide, by decide⟩
  · intro f
    cases f <;> rfl
  · intro f
    cases f <;> rfl

/-- Model of a JSON value (`serde_json::Value`); numbers are modelled as
integers, which suffices for the structural claims below. Objects keep
their members as an ordered association list. -/
inductive Json where
  | null
  | bool (b : Bool)
  | num (n : Int)
  | str (s : String)
  | arr (elems : List Json)
  | obj (fields : List (String × Json))

/-- First value stored under a key in a JSON object's member list. -/
def jsonLookup (fields : List (String × Json)) (key : String) : Option Json :=
  match fields with
  | [] => none
  | (k, v) :: rest => if k = key then some v else jsonLookup rest key

/-- The wire name under which `DriveItem::download_url` is (de)serialized:
the `@"@microsoft.graph.downloadUrl"` rename literal in
`src/resource.rs`, which the macro turns into a per-field serde rename
overriding the struct-level `rename_all = "camelCase"` rule. -/
def downloadUrlWireName : String := "@microsoft.graph.downloadUrl"

/-- Model of how DriveItem deserialization obtains the `download_url`
member from a JSON object body: lookup under the literal vendor-prefixed
wire name. -/
def readDownloadUrl (fields : List (String × Json)) : Option Json :=
  jsonLookup fields downloadUrlWireName

/-- C7: DriveItem deserialization reads the pre-authorized download URL
from the literal key "@microsoft.graph.downloadUrl"; a body keyed by the
camelCase translation of the logical name is not read, because the wire
name differs from that translation. -/
theorem driveItem_download_url_wire_name (u : String) :
    readDownloadUrl [(downloadUrlWireName, Json.str u)] = some (Json.str u) ∧
    readDownloadUrl [(snake_to_camel_case ("download_url"), Json.str u)] = none ∧
    downloadUrlWireName ≠ snake_to_camel_case ("download_url") ∧
    snake_to_camel_case ("download_url") = ("downloadUrl") := by
  have hs : snake_to_camel_case ("download_url") = ("downloadUrl") := by decide
  refine ⟨?_, ?_, by decide, hs⟩
  · simp [readDownloadUrl, jsonLookup]
  · rw [hs]
    simp only [readDownloadUrl, jsonLookup]
    rw [if_neg (by decide)]

/-- The error object responded from the server (`ErrorObject` in
`src/resource.rs`): optional code, optional message, optional recursive
inner error, plus the open `extra_data` map of any additional members
(the `#[serde(flatten)]` field), modelled as an insertion-ordered
association list. -/
inductive ErrorObject where
  | mk (code : Option String) (message : Option String)
      (inner_error : Option ErrorObject)
      (extra_data : List (String × Json))

/-- Value model for an `Option<String>` struct field: JSON null gives
`none`, a JSON string gives `some`, anything else is a type error. -/
def parseOptString : Json → Option (Option String)
  | .null => some none
  | .str s => some (some s)
  | _ => none

/-- Whether a JSON value is the null literal. -/
def Json.isNull : Json → Bool
  | .null => true
  | _ => false

/-- Insert-or-replace into an object member list (the open `extra_data`
map collecting unrecognized members). -/
def mapInsert (m : List (String × Json)) (k : String) (v : Json) :
    List (String × Json) :=
  match m with
  | [] => [(k, v)]
  | (k1, v1) :: rest =>
    if k1 = k then (k1, v) :: rest else (k1, v1) :: mapInsert rest k v

mutual

/-- Model of the derived `Deserialize` for `ErrorObject`: only a JSON
object is accepted; its members are folded left to right by `deErrGo`. -/
def deserializeErrorObject : Json → Option ErrorObject
  | .obj fields => deErrGo fields none none none []
  | _ => none
termination_by j => sizeOf j

/-- One step per member of the object: the known wire keys "code",
"message" and "innerError" (the camelCase of `inner_error`) are each
captured at most once — a duplicate is an error — and every other member
is inserted into the open extra map; the inner error is deserialized
recursively. -/
def deErrGo : List (String × Json) → Option (Option String) →
    Option (Option String) → Option (Option ErrorObject) →
    List (String × Json) → Option ErrorObject
  | [], code, message, inner, extra =>
      some (ErrorObject.mk (code.getD none) (message.getD none)
        (inner.getD none) extra)
  | (k, v) :: rest, code, message, inner, extra =>
      if k = ("code") then
        if code.isSome then none
        else if (parseOptString v).isSome then
          deErrGo rest (parseOptString v) message inner extra
        else none
      else if k = ("message") then
        if message.isSome then none
        else if (parseOptString v).isSome then
          deErrGo rest code (parseOptString v) inner extra
        else none
      else if k = ("innerError") then
        if inner.isSome then none
        else if v.isNull then deErrGo rest code message (some none) extra
        else if (deserializeErrorObject v).isSome then
          deErrGo rest code message (some (deserializeErrorObject v)) extra
        else none
      else deErrGo rest code message inner (mapInsert extra k v)
termination_by fields _ _ _ _ => sizeOf fields
decreasing_by all_goals (simp_wf <;> omega)

end

/-- Inserting a fresh key appends the member at the end of the map. -/
theorem mapInsert_append (acc : List (String × Json)) (k : String) (v : Json)
    (h : ∀ q ∈ acc, k ≠ q.1) : mapInsert acc k v = acc ++ [(k, v)] := by
  induction acc with
  | nil => rfl
  | cons q rest ih =>
    obtain ⟨k1, v1⟩ := q
    have hne : ¬k1 = k := fun he => (h (k1, v1) (by simp)) he.symm
    simp only [mapInsert, if_neg hne, List.cons_append, List.cons.injEq, true_and]
    exact ih fun q hq => h q (by simp [hq])

/-- Folding members none of whose keys is a known field never fails and
appends every member, in order, to the open extra map, leaving the three
captured fields as they were. -/
theorem deErrGo_unknown (extras : List (String × Json)) :
    ∀ (code message : Option (Option String)) (inner : Option (Option ErrorObject))
      (acc : List (String × Json)),
      (∀ p ∈ extras, p.1 ≠ ("code") ∧ p.1 ≠ ("message") ∧ p.1 ≠ ("innerError")) →
      (∀ p ∈ extras, ∀ q ∈ acc, p.1 ≠ q.1) →
      List.Nodup (extras.map Prod.fst) →
      deErrGo extras code message inner acc
        = some (ErrorObject.mk (code.getD none) (message.getD none)
            (inner.getD none) (acc ++ extras)) := by
  induction extras with
  | nil =>
    intro code message inner acc h1 h2 h3
    simp [deErrGo]
  | cons p rest ih =>
    intro code message inner acc h1 h2 h3
    obtain ⟨k, v⟩ := p
    have hk := h1 (k, v) (by simp)
    simp only [List.map_cons, List.nodup_cons, List.mem_map] at h3
    rw [deErrGo]
    rw [if_neg hk.1, if_neg hk.2.1, if_neg hk.2.2]
    rw [mapInsert_append acc k v (fun q hq => (h2 (k, v) (by simp) q hq))]
    rw [ih code message inner (acc ++ [(k, v)])
      (fun p hp => h1 p (by simp [hp]))
      ?_ h3.2]
    · rw [List.append_assoc]
      rfl
    · intro p hp q hq
      rcases List.mem_append.mp hq with hq1 | hq1
      · exact h2 p (by simp [hp]) q hq1
      · simp only [List.mem_singleton] at hq1
        subst hq1
        intro he
        exact h3.1 ⟨p, hp, he⟩

/-- C9: deserializing an ErrorObject never fails because the JSON object
carries members beyond code, message and innerError: all unrecognized
members land in the open extra_data map, the three known fields are each
optional (absent fields yield none), and innerError recursively holds
another ErrorObject. -/
theorem errorObject_open_deserialize (c m : String) (extras : List (String × Json))
    (hu : ∀ p ∈ extras, p.1 ≠ ("code") ∧ p.1 ≠ ("message") ∧ p.1 ≠ ("innerError"))
    (hnd : List.Nodup (extras.map Prod.fst)) :
    deserializeErrorObject (Json.obj extras)
      = some (ErrorObject.mk none none none extras) ∧
    deserializeErrorObject (Json.obj ((("code"), Json.str c)
        :: (("message"), Json.str m)
        :: (("innerError"), Json.obj []) :: extras))
      = some (ErrorObject.mk (some c) (some m)
          (some (ErrorObject.mk none none none [])) extras) := by
  have hbase : ∀ (code message : Option (Option String))
      (inner : Option (Option ErrorObject)),
      deErrGo extras code message inner []
        = some (ErrorObject.mk (code.getD none) (message.getD none)
            (inner.getD none) extras) := by
    intro code message inner
    have h := deErrGo_unknown extras code message inner [] hu (by simp) hnd
    simpa using h
  constructor
  · rw [deserializeErrorObject]
    simpa using hbase none none none
  · rw [deserializeErrorObject]
    rw [deErrGo, if_pos rfl]
    simp only [Option.isSome_none, Bool.false_eq_true, if_false, parseOptString,
      Option.isSome_some, if_true]
    rw [deErrGo, if_neg (by decide), if_pos rfl]
    simp only [Option.isSome_none, Bool.false_eq_true, if_false, parseOptString,
      Option.isSome_some, if_true]
    rw [deErrGo, if_neg (by decide), if_neg (by decide), if_pos rfl]
    have hempty : deserializeErrorObject (Json.obj [])
        = some (ErrorObject.mk none none none []) := by
      rw [deserializeErrorObject, deErrGo]
      simp
    simp only [Option.isSome_none, Bool.false_eq_true, if_false, Json.isNull,
      hempty, Option.isSome_some, if_true]
    simpa using hbase (some (some c)) (some (some m))
      (some (some (ErrorObject.mk none none none [])))

/-- Witness for C9 at code = "itemNotFound", message = "oops" and one extra
member. -/
theorem errorObject_open_deserialize_witness :
    deserializeErrorObject (Json.obj [(("retryAfterSeconds"), Json.num 5)])
      = some (ErrorObject.mk none none none [(("retryAfterSeconds"), Json.num 5)]) ∧
    deserializeErrorObject (Json.obj [(("code"), Json.str ("itemNotFound")),
        (("message"), Json.str ("oops")), (("innerError"), Json.obj []),
        (("retryAfterSeconds"), Json.num 5)])
      = some (ErrorObject.mk (some ("itemNotFound")) (some ("oops"))
          (some (ErrorObject.mk none none none []))
          [(("retryAfterSeconds"), Json.num 5)]) :=
  errorObject_open_deserialize ("itemNotFound") ("oops")
    [(("retryAfterSeconds"), Json.num 5)]
    (by intro p hp; simp only [List.mem_singleton] at hp; subst hp; exact ⟨by decide, by decide, by decide⟩)
    (by simp)

end OneDriveApi
